import Mathlib

/-!
Verification of the geo-match spatial index: a KD-tree over driver records
(`KDTree` with `insert`, `remove`, `update`, `findNearestNeighbors`), together
with the Haversine great-circle distance from the driver utilities.

Modelling choices, kept faithful to the source:
* `double` coordinates and distances are modelled as rationals (`Rat`); the
  great-circle distance, which is transcendental, is modelled over `Real`.
* the C++ `int` parameter `k` is an `Int`; the comparison
  `nearest.size() < k` converts `k` to `size_t`, i.e. compares against
  `k` reduced modulo `2 ^ 64` (`sizeLtK`).
* calling `back()` on an empty `std::vector` is undefined behaviour; the
  search is therefore modelled in `Option`, returning `none` exactly when
  such an access happens.
* `std::sort` on the candidate list is modelled as a merge sort keyed on the
  squared distance (the first pair component).
* the C++ node stores a `depth` field, but every routine uses the `depth`
  recursion argument instead and the field is never read, so it is dropped.
-/

structure Driver where
  id : Int
  lat : Rat
  lng : Rat
  name : String
  available : Bool
deriving Repr, DecidableEq

inductive KDNode where
  | nil : KDNode
  | node (driver : Driver) (left right : KDNode) : KDNode
deriving Repr, DecidableEq

/-- `squaredDistance` of the `KDTree` class: squared planar distance. -/
def squaredDistance (lat1 lng1 lat2 lng2 : Rat) : Rat :=
  (lat2 - lat1) * (lat2 - lat1) + (lng2 - lng1) * (lng2 - lng1)

/-- `insertRecursive` of the `KDTree` class. -/
def insertRecursive : KDNode → Driver → Nat → KDNode
  | .nil, driver, _ => .node driver .nil .nil
  | .node cur l r, driver, depth =>
    let useLat := depth % 2 == 0
    let currentValue := if useLat then cur.lat else cur.lng
    let newValue := if useLat then driver.lat else driver.lng
    if newValue < currentValue then
      .node cur (insertRecursive l driver (depth + 1)) r
    else
      .node cur l (insertRecursive r driver (depth + 1))

/-- The C++ comparison `nearest.size() < k` between a `size_t` and an `int`:
the `int` is converted to `size_t`, i.e. reduced modulo `2 ^ 64`. -/
def sizeLtK (n : Nat) (k : Int) : Bool :=
  decide ((n : Int) < k % (2 ^ 64))

/-- `std::sort` on the `(distance, driver)` candidate list, ordered by the
distance component. -/
def sortByDist (l : List (Rat × Driver)) : List (Rat × Driver) :=
  l.mergeSort (fun a b => decide (a.1 ≤ b.1))

/-- The candidate-admission step of `findNearestNeighborsRecursive`: if the
record is available, push it when the list still holds fewer than `k`
entries (in the `size_t` sense), otherwise compare against the worst (last)
entry; `none` models `back()` on an empty vector. -/
def admitCandidate (drv : Driver) (dist : Rat) (k : Int)
    (nearest : List (Rat × Driver)) : Option (List (Rat × Driver)) :=
  if drv.available then
    if sizeLtK nearest.length k then
      some (sortByDist (nearest ++ [(dist, drv)]))
    else
      match nearest.getLast? with
      | none => none
      | some worst =>
        if dist < worst.1 then
          some (sortByDist (nearest.dropLast ++ [(dist, drv)]))
        else
          some nearest
  else some nearest

/-- Null test on a child pointer (`if (first)` / `if (second && ...)` in the
C++ source). -/
def KDNode.isNil : KDNode → Bool
  | .nil => true
  | .node _ _ _ => false

/-- `findNearestNeighborsRecursive` of the `KDTree` class.  The candidate
list `nearest` is threaded through; `none` models the undefined behaviour of
`nearest.back()` on an empty vector. -/
def findNearestNeighborsRecursive :
    KDNode → Rat → Rat → Int → List (Rat × Driver) → Nat → Option (List (Rat × Driver))
  | .nil, _, _, _, nearest, _ => some nearest
  | .node drv l r, targetLat, targetLng, k, nearest, depth =>
    match admitCandidate drv (squaredDistance targetLat targetLng drv.lat drv.lng) k nearest with
    | none => none
    | some n1 =>
      let useLat := depth % 2 == 0
      let currentValue := if useLat then drv.lat else drv.lng
      let targetValue := if useLat then targetLat else targetLng
      if targetValue < currentValue then
        match (if l.isNil then some n1
               else findNearestNeighborsRecursive l targetLat targetLng k n1 (depth + 1)) with
        | none => none
        | some n2 =>
          if !r.isNil && sizeLtK n2.length k then
            match n2.getLast? with
            | none => none
            | some worst =>
              if (targetValue - currentValue) * (targetValue - currentValue) < worst.1 then
                findNearestNeighborsRecursive r targetLat targetLng k n2 (depth + 1)
              else some n2
          else some n2
      else
        match (if r.isNil then some n1
               else findNearestNeighborsRecursive r targetLat targetLng k n1 (depth + 1)) with
        | none => none
        | some n2 =>
          if !l.isNil && sizeLtK n2.length k then
            match n2.getLast? with
            | none => none
            | some worst =>
              if (targetValue - currentValue) * (targetValue - currentValue) < worst.1 then
                findNearestNeighborsRecursive l targetLat targetLng k n2 (depth + 1)
              else some n2
          else some n2

/-- `findNearestNeighbors` of the `KDTree` class. -/
def findNearestNeighbors (root : KDNode) (targetLat targetLng : Rat) (k : Int) :
    Option (List Driver) :=
  match findNearestNeighborsRecursive root targetLat targetLng k [] 0 with
  | none => none
  | some nearest => some (nearest.map Prod.snd)

/-- The `minNode` loop of `deleteRecursive`: starting from a node, walk into
`left` children while they exist and return the final node's record.  `acc`
holds the record of the node currently pointed at. -/
def leftmostDriver : KDNode → Driver → Driver
  | .nil, acc => acc
  | .node d l _, _ => leftmostDriver l d

/-- `deleteRecursive` of the `KDTree` class. -/
def deleteRecursive : KDNode → Driver → Nat → KDNode
  | .nil, _, _ => .nil
  | .node cur l r, driver, depth =>
    let useLat := depth % 2 == 0
    let currentValue := if useLat then cur.lat else cur.lng
    let targetValue := if useLat then driver.lat else driver.lng
    if cur.id = driver.id then
      match r, l with
      | .nil, ln => ln
      | rn, .nil => rn
      | rn, _ =>
        let minDriver := leftmostDriver rn cur
        .node minDriver l (deleteRecursive rn minDriver (depth + 1))
    else if targetValue < currentValue then
      .node cur (deleteRecursive l driver (depth + 1)) r
    else
      .node cur l (deleteRecursive r driver (depth + 1))

/-- `KDTree::insert`. -/
def KDTree.insert (root : KDNode) (driver : Driver) : KDNode :=
  insertRecursive root driver 0

/-- `KDTree::remove`. -/
def KDTree.remove (root : KDNode) (driver : Driver) : KDNode :=
  deleteRecursive root driver 0

/-- `KDTree::update`: remove then insert. -/
def KDTree.update (root : KDNode) (driver : Driver) : KDNode :=
  KDTree.insert (KDTree.remove root driver) driver

/-- Number of nodes of a tree. -/
def KDNode.size : KDNode → Nat
  | .nil => 0
  | .node _ l r => l.size + r.size + 1

/-- All records stored in a tree satisfy `p`. -/
def KDNode.allNodes (p : Driver → Bool) : KDNode → Bool
  | .nil => true
  | .node d l r => p d && KDNode.allNodes p l && KDNode.allNodes p r

/-- The coordinate used for splitting at a given depth: latitude at even
depth, longitude at odd depth. -/
def axisValue (depth : Nat) (d : Driver) : Rat :=
  if depth % 2 == 0 then d.lat else d.lng

/-- The axis-ordering invariant of the tree: at every node, left-subtree
records are strictly smaller and right-subtree records are at least as large
on that node's splitting axis. -/
def axisInvariant : KDNode → Nat → Bool
  | .nil, _ => true
  | .node d l r, depth =>
    l.allNodes (fun x => decide (axisValue depth x < axisValue depth d))
      && r.allNodes (fun x => decide (axisValue depth d ≤ axisValue depth x))
      && axisInvariant l (depth + 1) && axisInvariant r (depth + 1)

/-- Number of nodes of a tree whose record carries the given id. -/
def countId : KDNode → Int → Nat
  | .nil, _ => 0
  | .node d l r, i => (if d.id = i then 1 else 0) + countId l i + countId r i

/-- The coordinate-determined descent path of `deleteRecursive` meets a node
whose id equals the argument's id. -/
def pathHasId : KDNode → Driver → Nat → Bool
  | .nil, _, _ => false
  | .node cur l r, driver, depth =>
    if cur.id = driver.id then true
    else
      let useLat := depth % 2 == 0
      let currentValue := if useLat then cur.lat else cur.lng
      let targetValue := if useLat then driver.lat else driver.lng
      if targetValue < currentValue then pathHasId l driver (depth + 1)
      else pathHasId r driver (depth + 1)

/-- `t' = t` with exactly one empty slot replaced by a fresh leaf holding
`driver`; every pre-existing node keeps its record and its links. -/
inductive IsGraftOf (driver : Driver) : KDNode → KDNode → Prop
  | leaf : IsGraftOf driver (.node driver .nil .nil) .nil
  | left {c : Driver} {l l' r : KDNode} :
      IsGraftOf driver l' l → IsGraftOf driver (.node c l' r) (.node c l r)
  | right {c : Driver} {l r r' : KDNode} :
      IsGraftOf driver r' r → IsGraftOf driver (.node c l r') (.node c l r)

/-- The root's record is available (vacuously true for the empty tree). -/
def rootAvailable : KDNode → Bool
  | .nil => true
  | .node d _ _ => d.available

/-- Relation between the candidate list entering a search step and the list
leaving it: every new pair belongs to an available record and carries its
true squared distance as key, sortedness by key is preserved, and a
non-empty list stays non-empty. -/
def searchStepSpec (targetLat targetLng : Rat)
    (ns rs : List (Rat × Driver)) : Prop :=
  (∀ p ∈ rs, p ∈ ns ∨
    (p.2.available = true ∧ p.1 = squaredDistance targetLat targetLng p.2.lat p.2.lng)) ∧
  ((ns.Pairwise fun a b => a.1 ≤ b.1) → rs.Pairwise fun a b => a.1 ≤ b.1) ∧
  (ns ≠ [] → rs ≠ [])

/-- The two-argument arctangent `Math.atan2 (y, x)` used by the Haversine
distance of the driver utilities. -/
noncomputable def atan2 (y x : Real) : Real :=
  if 0 < x then Real.arctan (y / x)
  else if x < 0 ∧ 0 ≤ y then Real.arctan (y / x) + Real.pi
  else if x < 0 ∧ y < 0 then Real.arctan (y / x) - Real.pi
  else if x = 0 ∧ 0 < y then Real.pi / 2
  else if x = 0 ∧ y < 0 then -(Real.pi / 2)
  else 0

/-- `haversineDistance` of the driver utilities: great-circle distance in
kilometres, Earth radius 6371 km. -/
noncomputable def haversineDistance (lat1 lng1 lat2 lng2 : Real) : Real :=
  let R : Real := 6371
  let dLat := (lat2 - lat1) * Real.pi / 180
  let dLng := (lng2 - lng1) * Real.pi / 180
  let a := Real.sin (dLat / 2) * Real.sin (dLat / 2) +
    Real.cos (lat1 * Real.pi / 180) * Real.cos (lat2 * Real.pi / 180) *
      Real.sin (dLng / 2) * Real.sin (dLng / 2)
  let c := 2 * atan2 (Real.sqrt a) (Real.sqrt (1 - a))
  R * c

/-! ### Concrete trees used in the theorems -/

def drvR : Driver := ⟨1, 0, 0, "R", true⟩

def drvA : Driver := ⟨2, 5, 10, "A", true⟩

def drvB : Driver := ⟨3, 7, 3, "B", true⟩

def drvL : Driver := ⟨4, -1, 0, "L", true⟩

/-- Insert order R, A, B, L: root R, left child L, right child A whose left
child is B. -/
def sampleTree : KDNode :=
  KDTree.insert (KDTree.insert (KDTree.insert (KDTree.insert .nil drvR) drvA) drvB) drvL

def c1d1 : Driver := ⟨1, 0, 0, "d1", true⟩

def c1d2 : Driver := ⟨2, -1, 5, "d2", true⟩

def c1tree : KDNode := KDTree.insert (KDTree.insert .nil c1d1) c1d2

def c2d1 : Driver := ⟨1, 0, 0, "d1", true⟩

def c2d2 : Driver := ⟨2, -1, 0, "d2", true⟩

def c2tree : KDNode := KDTree.insert (KDTree.insert .nil c2d1) c2d2

def c5root : Driver := ⟨1, 0, 0, "u", false⟩

def c5kid : Driver := ⟨2, 1, 0, "v", true⟩

def c5tree : KDNode := KDTree.insert (KDTree.insert .nil c5root) c5kid

def c9root : Driver := ⟨9, 0, 0, "root", true⟩

def c9old : Driver := ⟨1, -1, 0, "one", true⟩

def c9new : Driver := ⟨1, 1, 0, "one", true⟩

def c9tree : KDNode := KDTree.insert (KDTree.insert .nil c9root) c9old

def c8A : Driver := ⟨1, 89, 2, "A", true⟩

def c8B : Driver := ⟨2, 88, 0, "B", true⟩

def c8tree : KDNode := KDTree.insert (KDTree.insert .nil c8A) c8B

/-! ### Claim theorems: concrete evaluations -/

/-- C1.  The far child is NOT entered whenever the candidate list already
holds `k` entries, even when the squared axis distance is strictly smaller
than the worst candidate's distance: on `c1tree` with query `(1, 5)` and
`k = 1` the list is full (holding `c1d1` at squared distance 26), the
splitting plane is at squared axis distance 1 < 26, yet the far child
holding `c1d2` (at squared distance 4) is never visited and the farther
`c1d1` is returned.  The code nests the axis-distance test inside
`nearest.size() < k`, so a full candidate list alone suppresses the far
branch, contradicting the claimed disjunction. -/
theorem c1_far_branch_suppressed :
    findNearestNeighbors c1tree 1 5 1 = some [c1d1] ∧
      squaredDistance 1 5 c1d2.lat c1d2.lng < squaredDistance 1 5 c1d1.lat c1d1.lng := by
  constructor
  · norm_num [findNearestNeighbors, findNearestNeighborsRecursive, admitCandidate, KDNode.isNil, KDTree.insert,
      insertRecursive, squaredDistance, sizeLtK, sortByDist, c1tree, c1d1, c1d2,
      List.mergeSort]
  · norm_num [squaredDistance, c1d1, c1d2]

/-- C2.  `findNearestNeighbors` can return fewer than
`min(k, available count)` entries: `c2tree` stores two available records,
but the query `(0, 0)` with `k = 2` returns a single entry, because the far
branch is suppressed by the mis-nested pruning condition. -/
theorem c2_cardinality_violated :
    findNearestNeighbors c2tree 0 0 2 = some [c2d1] ∧
      KDNode.allNodes (fun d => d.available) c2tree = true ∧
      c2tree.size = 2 := by
  refine ⟨?_, ?_, ?_⟩
  · norm_num [findNearestNeighbors, findNearestNeighborsRecursive, admitCandidate, KDNode.isNil, KDTree.insert,
      insertRecursive, squaredDistance, sizeLtK, sortByDist, c2tree, c2d1, c2d2,
      List.mergeSort]
  · norm_num [KDNode.allNodes, KDTree.insert, insertRecursive, c2tree, c2d1, c2d2]
  · norm_num [KDNode.size, KDTree.insert, insertRecursive, c2tree, c2d1, c2d2]

/-- C3.  A strictly negative `k` does not return the empty sequence: the
comparison `nearest.size() < k` converts the negative `int` to a huge
`size_t`, so every available record is admitted and `k = -1` returns the
whole record set instead of `[]`. -/
theorem c3_negative_k_not_empty :
    findNearestNeighbors (KDTree.insert .nil c1d1) 0 0 (-1) = some [c1d1] := by
  norm_num [findNearestNeighbors, findNearestNeighborsRecursive, admitCandidate, KDNode.isNil, KDTree.insert,
    insertRecursive, squaredDistance, sizeLtK, sortByDist, c1d1, List.mergeSort]

/-- C4.  The axis-ordering invariant is NOT preserved by `remove` in the
two-children case: `sampleTree` satisfies the invariant, but removing its
root promotes the structurally leftmost node of the right subtree (id 3,
latitude 7), which is not the latitude-minimum there; the remaining right
subtree keeps a node of latitude 5 < 7, violating the invariant. -/
theorem c4_invariant_broken_by_remove :
    axisInvariant sampleTree 0 = true ∧
      axisInvariant (KDTree.remove sampleTree drvR) 0 = false := by
  constructor
  · norm_num [axisInvariant, KDNode.allNodes, axisValue, sampleTree, KDTree.insert,
      insertRecursive, drvR, drvA, drvB, drvL]
  · norm_num [axisInvariant, KDNode.allNodes, axisValue, sampleTree, KDTree.insert,
      KDTree.remove, insertRecursive, deleteRecursive, leftmostDriver, drvR, drvA,
      drvB, drvL]

/-- C5 counterexample.  The read of the last candidate in the far-branch
test is reachable with an empty candidate list: on `c5tree` the root's
record is unavailable, so nothing has been admitted when the far-branch
test calls `back()` on the empty vector (modelled as `none`). -/
theorem c5_empty_back_reachable :
    findNearestNeighbors c5tree (-1) 0 1 = none := by
  norm_num [findNearestNeighbors, findNearestNeighborsRecursive, admitCandidate, KDNode.isNil, KDTree.insert,
    insertRecursive, squaredDistance, sizeLtK, sortByDist, c5tree, c5root, c5kid,
    List.mergeSort]

/-- C7.  Removing the root record of `sampleTree` and reinserting it changes
the `kNearest` result even as a set: the original tree returns records with
ids 1 and 3, the remove-then-insert tree returns ids 1 and 4. -/
theorem c7_remove_insert_roundtrip_changes_result :
    findNearestNeighbors sampleTree 0 0 2 = some [drvR, drvB] ∧
      findNearestNeighbors (KDTree.insert (KDTree.remove sampleTree drvR) drvR) 0 0 2
        = some [drvR, drvL] ∧
      drvB ∈ [drvR, drvB] ∧ drvB ∉ [drvR, drvL] := by
  refine ⟨?_, ?_, ?_, ?_⟩
  · norm_num [findNearestNeighbors, findNearestNeighborsRecursive, admitCandidate, KDNode.isNil, KDTree.insert,
      insertRecursive, squaredDistance, sizeLtK, sortByDist, sampleTree, drvR, drvA,
      drvB, drvL, List.mergeSort]
  · norm_num [findNearestNeighbors, findNearestNeighborsRecursive, admitCandidate, KDNode.isNil, KDTree.insert,
      KDTree.remove, insertRecursive, deleteRecursive, leftmostDriver, squaredDistance,
      sizeLtK, sortByDist, sampleTree, drvR, drvA, drvB, drvL, List.mergeSort]
  · norm_num
  · norm_num [drvR, drvB, drvL]

/-- C10.  `insertRecursive` grafts exactly one fresh leaf onto the tree and
leaves every pre-existing node (record and child links) unchanged, so the
node count grows by exactly one — no id check is performed. -/
theorem c10_insert_grafts_one_leaf :
    ∀ (t : KDNode) (driver : Driver) (depth : Nat),
      IsGraftOf driver (insertRecursive t driver depth) t ∧
        (insertRecursive t driver depth).size = t.size + 1 := by
  intro t driver
  induction t with
  | nil =>
    intro depth
    exact ⟨IsGraftOf.leaf, rfl⟩
  | node cur l r ihl ihr =>
    intro depth
    simp only [insertRecursive]
    by_cases h : (if depth % 2 == 0 then driver.lat else driver.lng) <
        (if depth % 2 == 0 then cur.lat else cur.lng)
    · simp only [if_pos h]
      refine ⟨IsGraftOf.left (ihl (depth + 1)).1, ?_⟩
      simp only [KDNode.size, (ihl (depth + 1)).2]
      omega
    · simp only [if_neg h]
      refine ⟨IsGraftOf.right (ihr (depth + 1)).1, ?_⟩
      simp only [KDNode.size, (ihr (depth + 1)).2]
      omega

/-- Unfolding of `deleteRecursive` at a node whose id does not match: the
routine descends by the coordinate comparison. -/
theorem deleteRecursive_ne (cur : Driver) (l r : KDNode) (driver : Driver) (depth : Nat)
    (hid : ¬ cur.id = driver.id) :
    deleteRecursive (.node cur l r) driver depth =
      if (if depth % 2 == 0 then driver.lat else driver.lng) <
          (if depth % 2 == 0 then cur.lat else cur.lng) then
        .node cur (deleteRecursive l driver (depth + 1)) r
      else
        .node cur l (deleteRecursive r driver (depth + 1)) := by
  cases r <;> cases l <;> simp only [deleteRecursive, if_neg hid]

/-- C9.  `deleteRecursive` descends by the argument's coordinates and acts
only at a node on that descent path whose id matches: if no node on the path
matches the id, the tree is returned unchanged (an off-path node with the
same id survives).  Consequently `update` with changed coordinates can leave
two nodes with the same id: on `c9tree`, updating id 1 from `(-1,0)` to
`(1,0)` descends right where the old node sits left, removes nothing, and
the insert leaves two id-1 nodes. -/
theorem c9_remove_targets_descent_path :
    (∀ (t : KDNode) (driver : Driver) (depth : Nat),
        pathHasId t driver depth = false → deleteRecursive t driver depth = t) ∧
      countId (KDTree.update c9tree c9new) 1 = 2 := by
  constructor
  · intro t driver
    induction t with
    | nil =>
      intro depth _
      rfl
    | node cur l r ihl ihr =>
      intro depth h
      simp only [pathHasId] at h
      by_cases hid : cur.id = driver.id
      · simp [hid] at h
      · rw [deleteRecursive_ne cur l r driver depth hid]
        simp only [if_neg hid] at h
        by_cases hcmp : (if depth % 2 == 0 then driver.lat else driver.lng) <
            (if depth % 2 == 0 then cur.lat else cur.lng)
        · simp only [if_pos hcmp] at h ⊢
          rw [ihl (depth + 1) h]
        · simp only [if_neg hcmp] at h ⊢
          rw [ihr (depth + 1) h]
  · norm_num [c9tree, c9root, c9old, c9new, KDTree.update, KDTree.insert, KDTree.remove,
      insertRecursive, deleteRecursive, countId]

/-- Witness for the C9 theorem: on `c9tree`, the descent path of `c9new`
meets no node with id 1, and `deleteRecursive` leaves the tree unchanged. -/
theorem c9_remove_targets_descent_path_witness :
    pathHasId c9tree c9new 0 = false ∧ deleteRecursive c9tree c9new 0 = c9tree := by
  refine ⟨?_, c9_remove_targets_descent_path.1 c9tree c9new 0 ?_⟩
  · norm_num [pathHasId, c9tree, c9root, c9old, c9new, KDTree.insert, insertRecursive]
  · norm_num [pathHasId, c9tree, c9root, c9old, c9new, KDTree.insert, insertRecursive]

/-! ### Helper lemmas about the candidate list -/

theorem mem_sortByDist {p : Rat × Driver} {l : List (Rat × Driver)} :
    p ∈ sortByDist l ↔ p ∈ l := by
  simp [sortByDist]

theorem sortByDist_ne_nil {l : List (Rat × Driver)} (h : l ≠ []) :
    sortByDist l ≠ [] := by
  intro hc
  apply h
  have hl : l.length = 0 := by
    simpa [sortByDist] using congrArg List.length hc
  exact List.length_eq_zero.mp hl

theorem pairwise_sortByDist (l : List (Rat × Driver)) :
    (sortByDist l).Pairwise (fun a b => a.1 ≤ b.1) := by
  have h : (sortByDist l).Pairwise (fun a b => decide (a.1 ≤ b.1) = true) := by
    apply List.sorted_mergeSort
    · intro a b c hab hbc
      simp only [decide_eq_true_eq] at hab hbc ⊢
      exact le_trans hab hbc
    · intro a b
      simp only [Bool.or_eq_true, decide_eq_true_eq]
      exact le_total a.1 b.1
  exact h.imp (fun hab => by simpa using hab)

theorem searchStepSpec_refl (targetLat targetLng : Rat) (ns : List (Rat × Driver)) :
    searchStepSpec targetLat targetLng ns ns :=
  ⟨fun _ hp => Or.inl hp, id, id⟩

theorem searchStepSpec_trans {targetLat targetLng : Rat}
    {ns ms rs : List (Rat × Driver)}
    (h1 : searchStepSpec targetLat targetLng ns ms)
    (h2 : searchStepSpec targetLat targetLng ms rs) :
    searchStepSpec targetLat targetLng ns rs := by
  obtain ⟨m1, s1, e1⟩ := h1
  obtain ⟨m2, s2, e2⟩ := h2
  exact ⟨fun p hp => (m2 p hp).elim (fun h => m1 p h) Or.inr,
    fun hs => s2 (s1 hs), fun hn => e2 (e1 hn)⟩

/-- The admission step, called with the record's true squared distance as
key, relates its input and output lists by `searchStepSpec`. -/
theorem admitCandidate_spec {drv : Driver} {targetLat targetLng : Rat} {k : Int}
    {nearest n1 : List (Rat × Driver)}
    (h : admitCandidate drv (squaredDistance targetLat targetLng drv.lat drv.lng) k nearest
      = some n1) :
    searchStepSpec targetLat targetLng nearest n1 := by
  unfold admitCandidate at h
  by_cases hav : drv.available = true
  · rw [if_pos hav] at h
    by_cases hsz : sizeLtK nearest.length k = true
    · rw [if_pos hsz] at h
      injection h with h
      subst h
      refine ⟨?_, fun _ => pairwise_sortByDist _, fun _ => sortByDist_ne_nil (by simp)⟩
      intro p hp
      rcases List.mem_append.mp (mem_sortByDist.mp hp) with hp | hp
      · exact Or.inl hp
      · simp only [List.mem_singleton] at hp
        subst hp
        exact Or.inr ⟨hav, rfl⟩
    · rw [if_neg hsz] at h
      split at h
      · cases h
      · rename_i worst hworst
        by_cases hlt : squaredDistance targetLat targetLng drv.lat drv.lng < worst.1
        · rw [if_pos hlt] at h
          injection h with h
          subst h
          refine ⟨?_, fun _ => pairwise_sortByDist _, fun _ => sortByDist_ne_nil (by simp)⟩
          intro p hp
          rcases List.mem_append.mp (mem_sortByDist.mp hp) with hp | hp
          · exact Or.inl (List.dropLast_subset nearest hp)
          · simp only [List.mem_singleton] at hp
            subst hp
            exact Or.inr ⟨hav, rfl⟩
        · rw [if_neg hlt] at h
          injection h with h
          subst h
          exact searchStepSpec_refl _ _ _
  · rw [if_neg hav] at h
    injection h with h
    subst h
    exact searchStepSpec_refl _ _ _

/-- When the record is available and the size test passes, the admission
step pushes the offered pair and re-sorts. -/
theorem admitCandidate_push {drv : Driver} {dist : Rat} {k : Int}
    {nearest : List (Rat × Driver)}
    (hav : drv.available = true) (hsz : sizeLtK nearest.length k = true) :
    admitCandidate drv dist k nearest = some (sortByDist (nearest ++ [(dist, drv)])) := by
  unfold admitCandidate
  rw [if_pos hav, if_pos hsz]

/-- The admission step fails only on an empty list, and then only when the
size test fails for an available record. -/
theorem admitCandidate_eq_none {drv : Driver} {dist : Rat} {k : Int}
    {nearest : List (Rat × Driver)}
    (h : admitCandidate drv dist k nearest = none) :
    nearest = [] ∧ ¬ (drv.available = true ∧ sizeLtK nearest.length k = true) := by
  unfold admitCandidate at h
  by_cases hav : drv.available = true
  · rw [if_pos hav] at h
    by_cases hsz : sizeLtK nearest.length k = true
    · rw [if_pos hsz] at h
      cases h
    · rw [if_neg hsz] at h
      split at h
      · rename_i hL
        exact ⟨List.getLast?_eq_none_iff.mp hL, fun hc => hsz hc.2⟩
      · rename_i worst hworst
        split at h <;> cases h
  · rw [if_neg hav] at h
    cases h

/-- The near-then-far exploration step of the search relates its incoming
and outgoing candidate lists by `searchStepSpec`, given that both children
do so. -/
theorem farNearStep_spec (targetLat targetLng : Rat) (near far : KDNode)
    (k : Int) (n1 res : List (Rat × Driver)) (depth : Nat) (av cv : Rat)
    (ihn : ∀ (ns : List (Rat × Driver)) (d2 : Nat) (rs : List (Rat × Driver)),
      findNearestNeighborsRecursive near targetLat targetLng k ns d2 = some rs →
      searchStepSpec targetLat targetLng ns rs)
    (ihf : ∀ (ns : List (Rat × Driver)) (d2 : Nat) (rs : List (Rat × Driver)),
      findNearestNeighborsRecursive far targetLat targetLng k ns d2 = some rs →
      searchStepSpec targetLat targetLng ns rs)
    (h : (match (if near.isNil then some n1
                 else findNearestNeighborsRecursive near targetLat targetLng k n1 (depth + 1)) with
          | none => none
          | some n2 =>
            if !far.isNil && sizeLtK n2.length k then
              match n2.getLast? with
              | none => none
              | some worst =>
                if (av - cv) * (av - cv) < worst.1 then
                  findNearestNeighborsRecursive far targetLat targetLng k n2 (depth + 1)
                else some n2
            else some n2) = some res) :
    searchStepSpec targetLat targetLng n1 res := by
  split at h
  · cases h
  · rename_i n2 hnear
    have s2 : searchStepSpec targetLat targetLng n1 n2 := by
      by_cases hnil : near.isNil = true
      · rw [if_pos hnil] at hnear
        injection hnear with hnear
        subst hnear
        exact searchStepSpec_refl _ _ _
      · rw [if_neg hnil] at hnear
        exact ihn n1 (depth + 1) n2 hnear
    split at h
    · split at h
      · cases h
      · rename_i worst hworst
        split at h
        · exact searchStepSpec_trans s2 (ihf n2 (depth + 1) res h)
        · injection h with h
          subst h
          exact s2
    · injection h with h
      subst h
      exact s2

/-- Master invariant of the recursive search: the output candidate list is
related to the input by `searchStepSpec`. -/
theorem findNearestNeighborsRecursive_spec (targetLat targetLng : Rat) :
    ∀ (t : KDNode) (k : Int) (nearest : List (Rat × Driver)) (depth : Nat)
      (res : List (Rat × Driver)),
      findNearestNeighborsRecursive t targetLat targetLng k nearest depth = some res →
      searchStepSpec targetLat targetLng nearest res := by
  intro t
  induction t with
  | nil =>
    intro k nearest depth res h
    simp only [findNearestNeighborsRecursive] at h
    injection h with h
    subst h
    exact searchStepSpec_refl _ _ _
  | node drv l r ihl ihr =>
    intro k nearest depth res h
    simp only [findNearestNeighborsRecursive] at h
    split at h
    · cases h
    · rename_i n1 hadm
      have s1 := admitCandidate_spec hadm
      split at h <;> split at h
      · exact searchStepSpec_trans s1
          (farNearStep_spec targetLat targetLng l r k n1 res depth _ _
            (fun ns d2 rs => ihl k ns d2 rs) (fun ns d2 rs => ihr k ns d2 rs) h)
      · exact searchStepSpec_trans s1
          (farNearStep_spec targetLat targetLng r l k n1 res depth _ _
            (fun ns d2 rs => ihr k ns d2 rs) (fun ns d2 rs => ihl k ns d2 rs) h)
      · exact searchStepSpec_trans s1
          (farNearStep_spec targetLat targetLng l r k n1 res depth _ _
            (fun ns d2 rs => ihl k ns d2 rs) (fun ns d2 rs => ihr k ns d2 rs) h)
      · exact searchStepSpec_trans s1
          (farNearStep_spec targetLat targetLng r l k n1 res depth _ _
            (fun ns d2 rs => ihr k ns d2 rs) (fun ns d2 rs => ihl k ns d2 rs) h)

/-- The near-then-far exploration step cannot fail when the incoming list is
non-empty, given that both children cannot fail on non-empty lists. -/
theorem farNearStep_ne_none (targetLat targetLng : Rat) (near far : KDNode)
    (k : Int) (n1 : List (Rat × Driver)) (depth : Nat) (av cv : Rat)
    (hn1 : n1 ≠ [])
    (ihn : ∀ (ns : List (Rat × Driver)) (d2 : Nat), ns ≠ [] →
      findNearestNeighborsRecursive near targetLat targetLng k ns d2 ≠ none)
    (ihf : ∀ (ns : List (Rat × Driver)) (d2 : Nat), ns ≠ [] →
      findNearestNeighborsRecursive far targetLat targetLng k ns d2 ≠ none)
    (h : (match (if near.isNil then some n1
                 else findNearestNeighborsRecursive near targetLat targetLng k n1 (depth + 1)) with
          | none => none
          | some n2 =>
            if !far.isNil && sizeLtK n2.length k then
              match n2.getLast? with
              | none => none
              | some worst =>
                if (av - cv) * (av - cv) < worst.1 then
                  findNearestNeighborsRecursive far targetLat targetLng k n2 (depth + 1)
                else some n2
            else some n2) = none) :
    False := by
  split at h
  · rename_i hnear
    by_cases hnil : near.isNil = true
    · rw [if_pos hnil] at hnear
      cases hnear
    · rw [if_neg hnil] at hnear
      exact ihn n1 (depth + 1) hn1 hnear
  · rename_i n2 hnear
    have hn2 : n2 ≠ [] := by
      by_cases hnil : near.isNil = true
      · rw [if_pos hnil] at hnear
        injection hnear with hnear
        subst hnear
        exact hn1
      · rw [if_neg hnil] at hnear
        exact (findNearestNeighborsRecursive_spec targetLat targetLng near k n1
          (depth + 1) n2 hnear).2.2 hn1
    split at h
    · split at h
      · rename_i hworst
        exact hn2 (List.getLast?_eq_none_iff.mp hworst)
      · rename_i worst hworst
        split at h
        · exact ihf n2 (depth + 1) hn2 h
        · cases h
    · cases h

/-- The recursive search never hits the empty-list `back()` access when the
incoming candidate list is non-empty, or when the visited root is available
and the size test lets its record be admitted. -/
theorem findNearestNeighborsRecursive_ne_none (targetLat targetLng : Rat) :
    ∀ (t : KDNode) (k : Int) (nearest : List (Rat × Driver)) (depth : Nat),
      (nearest ≠ [] ∨ (rootAvailable t = true ∧ sizeLtK nearest.length k = true)) →
      findNearestNeighborsRecursive t targetLat targetLng k nearest depth ≠ none := by
  intro t
  induction t with
  | nil =>
    intro k nearest depth _ h
    simp only [findNearestNeighborsRecursive] at h
    cases h
  | node drv l r ihl ihr =>
    intro k nearest depth hpre h
    simp only [findNearestNeighborsRecursive] at h
    split at h
    · rename_i hadm
      obtain ⟨hnil, hnot⟩ := admitCandidate_eq_none hadm
      rcases hpre with hne | hok
      · exact hne hnil
      · exact hnot hok
    · rename_i n1 hadm
      have hn1 : n1 ≠ [] := by
        rcases hpre with hne | ⟨hav, hsz⟩
        · exact (admitCandidate_spec hadm).2.2 hne
        · rw [admitCandidate_push hav hsz] at hadm
          injection hadm with hadm
          subst hadm
          exact sortByDist_ne_nil (by simp)
      split at h <;> split at h
      · exact farNearStep_ne_none targetLat targetLng l r k n1 depth _ _ hn1
          (fun ns d2 hns => ihl k ns d2 (Or.inl hns))
          (fun ns d2 hns => ihr k ns d2 (Or.inl hns)) h
      · exact farNearStep_ne_none targetLat targetLng r l k n1 depth _ _ hn1
          (fun ns d2 hns => ihr k ns d2 (Or.inl hns))
          (fun ns d2 hns => ihl k ns d2 (Or.inl hns)) h
      · exact farNearStep_ne_none targetLat targetLng l r k n1 depth _ _ hn1
          (fun ns d2 hns => ihl k ns d2 (Or.inl hns))
          (fun ns d2 hns => ihr k ns d2 (Or.inl hns)) h
      · exact farNearStep_ne_none targetLat targetLng r l k n1 depth _ _ hn1
          (fun ns d2 hns => ihr k ns d2 (Or.inl hns))
          (fun ns d2 hns => ihl k ns d2 (Or.inl hns)) h

/-- C5 amended.  When `1 ≤ k < 2^31` and the root's record is available (or
the tree is empty), the evaluation of `findNearestNeighbors` is safe: once a
record has been admitted the candidate list never becomes empty, so no
`back()` access on an empty list occurs and the result is `some`. -/
theorem c5_amended_safety (root : KDNode) (targetLat targetLng : Rat) (k : Int)
    (h1 : 1 ≤ k) (h2 : k < 2 ^ 31) (hav : rootAvailable root = true) :
    (findNearestNeighbors root targetLat targetLng k).isSome = true := by
  have hsz : sizeLtK ([] : List (Rat × Driver)).length k = true := by
    simp only [sizeLtK, List.length_nil, Nat.cast_zero, decide_eq_true_eq]
    omega
  have hne := findNearestNeighborsRecursive_ne_none targetLat targetLng root k [] 0
    (Or.inr ⟨hav, hsz⟩)
  unfold findNearestNeighbors
  rcases hE : findNearestNeighborsRecursive root targetLat targetLng k [] 0 with _ | res
  · exact absurd hE hne
  · rfl

/-- Witness for the amended C5 theorem at a concrete input. -/
theorem c5_amended_safety_witness :
    (findNearestNeighbors (KDTree.insert .nil c1d1) 0 0 1).isSome = true :=
  c5_amended_safety (KDTree.insert .nil c1d1) 0 0 1 (by decide) (by decide)
    (by norm_num [rootAvailable, KDTree.insert, insertRecursive, c1d1])

/-- C6.  Every record in any successful `findNearestNeighbors` result is
available; hence a record whose `available` flag is `false` — e.g. after an
`update` that marked it unavailable — never appears in any result, even
though its node remains in the tree and is still traversed. -/
theorem c6_unavailable_never_in_result (root : KDNode) (targetLat targetLng : Rat)
    (k : Int) (res : List Driver) (d : Driver)
    (hd : d.available = false)
    (h : findNearestNeighbors root targetLat targetLng k = some res) :
    d ∉ res := by
  unfold findNearestNeighbors at h
  split at h
  · cases h
  · rename_i pairs hE
    injection h with h
    subst h
    intro hmem
    rcases List.mem_map.mp hmem with ⟨p, hp, hpd⟩
    rcases (findNearestNeighborsRecursive_spec targetLat targetLng root k [] 0
        pairs hE).1 p hp with hin | ⟨hav, -⟩
    · exact absurd hin (List.not_mem_nil p)
    · rw [hpd] at hav
      rw [hav] at hd
      cases hd

/-- Witness for the C6 theorem at a concrete input: the unavailable root
record of `c5tree` is not in the result. -/
theorem c6_unavailable_never_in_result_witness :
    c5root.available = false ∧ c5root ∉ [c5kid] := by
  refine ⟨by norm_num [c5root], ?_⟩
  exact c6_unavailable_never_in_result c5tree 1 0 1 [c5kid] c5root
    (by norm_num [c5root])
    (by norm_num [findNearestNeighbors, findNearestNeighborsRecursive, admitCandidate,
      KDNode.isNil, KDTree.insert, insertRecursive, squaredDistance, sizeLtK, sortByDist,
      c5tree, c5root, c5kid, List.mergeSort])

/-- C8 amended.  Any successful `findNearestNeighbors` result is
non-decreasing in the squared planar distance to the query point — the
internal sort key — rather than in the great-circle distance. -/
theorem c8_amended_sorted_by_planar (root : KDNode) (targetLat targetLng : Rat)
    (k : Int) (res : List Driver)
    (h : findNearestNeighbors root targetLat targetLng k = some res) :
    res.Pairwise (fun a b =>
      squaredDistance targetLat targetLng a.lat a.lng ≤
        squaredDistance targetLat targetLng b.lat b.lng) := by
  unfold findNearestNeighbors at h
  split at h
  · cases h
  · rename_i pairs hE
    injection h with h
    subst h
    obtain ⟨hmem, hsort, -⟩ :=
      findNearestNeighborsRecursive_spec targetLat targetLng root k [] 0 pairs hE
    have hkey : ∀ p ∈ pairs, p.1 = squaredDistance targetLat targetLng p.2.lat p.2.lng := by
      intro p hp
      rcases hmem p hp with hin | ⟨-, hk⟩
      · exact absurd hin (List.not_mem_nil p)
      · exact hk
    have hpair : pairs.Pairwise (fun a b => a.1 ≤ b.1) := hsort List.Pairwise.nil
    rw [List.pairwise_map]
    refine hpair.imp_of_mem ?_
    intro a b ha hb hab
    rw [← hkey a ha, ← hkey b hb]
    exact hab

/-- Witness for the amended C8 theorem at a concrete input. -/
theorem c8_amended_sorted_by_planar_witness :
    List.Pairwise (fun a b : Driver =>
      squaredDistance 89 0 a.lat a.lng ≤ squaredDistance 89 0 b.lat b.lng) [c8B, c8A] :=
  c8_amended_sorted_by_planar c8tree 89 0 2 [c8B, c8A]
    (by norm_num [findNearestNeighbors, findNearestNeighborsRecursive, admitCandidate,
      KDNode.isNil, KDTree.insert, insertRecursive, squaredDistance, sizeLtK, sortByDist,
      c8tree, c8A, c8B, List.mergeSort])

/-! ### Great-circle distance at the C8 counterexample points -/

theorem arctan_lt_self {x : Real} (hx : 0 < x) : Real.arctan x < x := by
  have h1 : 0 < Real.arctan x := by
    have := Real.arctan_strictMono hx
    rwa [Real.arctan_zero] at this
  have h3 := Real.lt_tan h1 (Real.arctan_lt_pi_div_two x)
  rwa [Real.tan_arctan] at h3

theorem arctan_le_self {x : Real} (hx : 0 ≤ x) : Real.arctan x ≤ x := by
  rcases eq_or_lt_of_le hx with h | h
  · rw [← h, Real.arctan_zero]
  · exact le_of_lt (arctan_lt_self h)

/-- Along a meridian, one degree of latitude is exactly `π/180` radians of
great circle: the Haversine distance from `(89, 0)` to `(88, 0)`. -/
theorem haversine_89_88 :
    haversineDistance 89 0 88 0 = 6371 * (Real.pi / 180) := by
  have hq : 0 < Real.pi / 360 := by positivity
  have hq2 : Real.pi / 360 < Real.pi / 2 := by linarith [Real.pi_pos]
  have hqpi : Real.pi / 360 < Real.pi := by linarith [Real.pi_pos]
  have hsin_nonneg : 0 ≤ Real.sin (Real.pi / 360) :=
    le_of_lt (Real.sin_pos_of_pos_of_lt_pi hq hqpi)
  have hcos_pos : 0 < Real.cos (Real.pi / 360) :=
    Real.cos_pos_of_mem_Ioo (Set.mem_Ioo.mpr ⟨by linarith, hq2⟩)
  simp only [haversineDistance]
  have e1 : ((88 : Real) - 89) * Real.pi / 180 / 2 = -(Real.pi / 360) := by ring
  have e2 : ((0 : Real) - 0) * Real.pi / 180 / 2 = 0 := by ring
  rw [e1, e2, Real.sin_neg, Real.sin_zero]
  have e4 : -Real.sin (Real.pi / 360) * -Real.sin (Real.pi / 360) +
      Real.cos ((89 : Real) * Real.pi / 180) * Real.cos ((88 : Real) * Real.pi / 180) * 0 * 0
      = Real.sin (Real.pi / 360) ^ 2 := by ring
  rw [e4, Real.sqrt_sq hsin_nonneg, ← Real.cos_sq', Real.sqrt_sq (le_of_lt hcos_pos)]
  simp only [atan2]
  rw [if_pos hcos_pos, ← Real.tan_eq_sin_div_cos,
    Real.arctan_tan (by linarith) hq2]
  ring

/-- At latitude 89, two degrees of longitude are a much shorter great-circle
arc than one degree of latitude: the Haversine distance from `(89, 0)` to
`(89, 2)` is strictly below `6371 * π/180`. -/
theorem haversine_89_89_2_lt :
    haversineDistance 89 0 89 2 < 6371 * (Real.pi / 180) := by
  have hq : 0 < Real.pi / 180 := by positivity
  have hq2 : Real.pi / 180 < Real.pi / 2 := by linarith [Real.pi_pos]
  have hqpi : Real.pi / 180 < Real.pi := by linarith [Real.pi_pos]
  have hs_pos : 0 < Real.sin (Real.pi / 180) :=
    Real.sin_pos_of_pos_of_lt_pi hq hqpi
  have hs_lt : Real.sin (Real.pi / 180) < Real.pi / 180 := Real.sin_lt hq
  have hpi_lt : Real.pi < 3.15 := Real.pi_lt_d2
  have hs_small : Real.sin (Real.pi / 180) < 1 / 16 := by nlinarith
  simp only [haversineDistance]
  have e1 : ((89 : Real) - 89) * Real.pi / 180 / 2 = 0 := by ring
  have e2 : ((2 : Real) - 0) * Real.pi / 180 / 2 = Real.pi / 180 := by ring
  have e3 : (89 : Real) * Real.pi / 180 = Real.pi / 2 - Real.pi / 180 := by ring
  rw [e1, e2, e3, Real.sin_zero, Real.cos_pi_div_two_sub]
  have e4 : (0 : Real) * 0 +
      Real.sin (Real.pi / 180) * Real.sin (Real.pi / 180) *
        Real.sin (Real.pi / 180) * Real.sin (Real.pi / 180)
      = (Real.sin (Real.pi / 180) ^ 2) ^ 2 := by ring
  rw [e4, Real.sqrt_sq (sq_nonneg _)]
  have hs2_small : Real.sin (Real.pi / 180) ^ 2 < 1 / 256 := by nlinarith
  have hs4_small : (Real.sin (Real.pi / 180) ^ 2) ^ 2 < 1 / 65536 := by
    nlinarith [sq_nonneg (Real.sin (Real.pi / 180))]
  have hsq_le : ((1 : Real) / 2) ^ 2 ≤ 1 - (Real.sin (Real.pi / 180) ^ 2) ^ 2 := by
    nlinarith
  have hsqrt_half : (1 : Real) / 2 ≤ Real.sqrt (1 - (Real.sin (Real.pi / 180) ^ 2) ^ 2) :=
    Real.le_sqrt_of_sq_le hsq_le
  have hsqrt_pos : 0 < Real.sqrt (1 - (Real.sin (Real.pi / 180) ^ 2) ^ 2) := by
    linarith
  simp only [atan2]
  rw [if_pos hsqrt_pos]
  have ht_nonneg : 0 ≤ Real.sin (Real.pi / 180) ^ 2 /
      Real.sqrt (1 - (Real.sin (Real.pi / 180) ^ 2) ^ 2) :=
    div_nonneg (sq_nonneg _) (Real.sqrt_nonneg _)
  have ht_le : Real.sin (Real.pi / 180) ^ 2 /
      Real.sqrt (1 - (Real.sin (Real.pi / 180) ^ 2) ^ 2)
      ≤ 2 * Real.sin (Real.pi / 180) ^ 2 := by
    rw [div_le_iff₀ hsqrt_pos]
    nlinarith [sq_nonneg (Real.sin (Real.pi / 180))]
  have harc := arctan_le_self ht_nonneg
  have hs2_lt : Real.sin (Real.pi / 180) ^ 2 < (Real.pi / 180) ^ 2 := by
    nlinarith
  nlinarith [Real.pi_gt_three]

/-- C8 counterexample.  On `c8tree` the query `(89, 0)` with `k = 2` returns
`[c8B, c8A]` (sorted by the planar key: 1 before 4), yet the second record
`c8A` at `(89, 2)` is strictly CLOSER in great-circle distance than the
first record `c8B` at `(88, 0)`: the returned sequence is not non-decreasing
in true distance. -/
theorem c8_not_sorted_by_true_distance :
    findNearestNeighbors c8tree 89 0 2 = some [c8B, c8A] ∧
      haversineDistance 89 0 ((c8A.lat : Real)) ((c8A.lng : Real)) <
        haversineDistance 89 0 ((c8B.lat : Real)) ((c8B.lng : Real)) := by
  constructor
  · norm_num [findNearestNeighbors, findNearestNeighborsRecursive, admitCandidate,
      KDNode.isNil, KDTree.insert, insertRecursive, squaredDistance, sizeLtK, sortByDist,
      c8tree, c8A, c8B, List.mergeSort]
  · have hA : ((c8A.lat : Rat) : Real) = 89 ∧ ((c8A.lng : Rat) : Real) = 2 ∧
        ((c8B.lat : Rat) : Real) = 88 ∧ ((c8B.lng : Rat) : Real) = 0 := by
      norm_num [c8A, c8B]
    rw [hA.1, hA.2.1, hA.2.2.1, hA.2.2.2, haversine_89_88]
    exact haversine_89_89_2_lt
